import Mathlib

/-!
Verification of the portfolio-backend retrieval-and-grounding pipeline.

The definitions below are a shallow embedding of the repository's Python
sources:
* `src/app/ingestion/loader.py` — corpus chunking (`create_text_chunks`),
  metadata cleaning (`clean_metadata`) and the ingestion pipeline
  (`load_data`);
* `src/main.py` — the query-time retrieval loop of `chat_endpoint`
  (`processMatch` / `collectMatches`), the intent heuristics
  (`get_matched_project_ids`, `should_show_profile_image`,
  `should_show_media`), the media selection (`finalMedia`) and the final
  answer composition (`compose`, `appendImgs`, `appendVids`).

Python strings are modelled as Lean `String`; Python's substring test
`sub in s` is `strContains`, `str.lower()` is `pyLower` (ASCII case),
dict values that may be `None` are `Option String`, similarity scores are
rationals (`ℚ`), and code that can raise returns `Except`.
-/

set_option maxRecDepth 10000
set_option linter.unnecessarySeqFocus false

namespace Portfolio

/-! ### String helpers modelling Python primitives -/

/-- Pattern `pat` occurs at the start of the list (Python `startswith`). -/
def listStartsWith : List Char → List Char → Bool
  | [], _ => true
  | _ :: _, [] => false
  | a :: as, b :: bs => (a == b) && listStartsWith as bs

/-- Pattern `pat` occurs somewhere inside the list (Python `in`). -/
def listHasSub : List Char → List Char → Bool
  | pat, [] => pat.isEmpty
  | pat, b :: bs => listStartsWith pat (b :: bs) || listHasSub pat bs

/-- Python `pat in hay` substring containment. -/
def strContains (hay pat : String) : Bool :=
  listHasSub pat.toList hay.toList

/-- Python `s.startswith(p)`. -/
def strStartsWith (s p : String) : Bool :=
  listStartsWith p.toList s.toList

/-- Python `s.lower()` (ASCII letters, which is all the keyword lists use). -/
def pyLower (s : String) : String :=
  String.mk (s.toList.map Char.toLower)

/-- Number of positions at which `pat` occurs as a substring of `l`. -/
def countOccurAux (pat : List Char) : List Char → Nat
  | [] => if listStartsWith pat [] then 1 else 0
  | c :: rest => (if listStartsWith pat (c :: rest) then 1 else 0) + countOccurAux pat rest

/-- Number of occurrences of `pat` inside `s` (counting positions). -/
def countOccur (s pat : String) : Nat :=
  countOccurAux pat.toList s.toList

/-- Worker for `dedupFirst`: keep the elements not seen yet, in order. -/
def dedupFirstAux (seen : List String) : List String → List String
  | [] => []
  | x :: xs =>
    if seen.contains x then dedupFirstAux seen xs
    else x :: dedupFirstAux (x :: seen) xs

/-- Python `list(dict.fromkeys(l))`: de-duplicate keeping first occurrences. -/
def dedupFirst (l : List String) : List String := dedupFirstAux [] l

/-! ### Corpus data model (`portfolio.json` as read by `loader.py`)

Every field a `dict.get` accessor can find absent is an `Option`; the
`documents` entries keep `Option` fields because `loader.py` indexes them
with `d['name']` / `d['type']` / `d['url']` directly (which raises
`KeyError` when absent). -/

structure DocEntry where
  name : Option String := none
  type : Option String := none
  url : Option String := none
  deriving DecidableEq

structure ProfileRec where
  name : Option String := none
  title : Option String := none
  bio : Option String := none
  location : Option String := none
  avatar_image : Option String := none
  email : Option String := none
  deriving DecidableEq

structure SkillsRec where
  languages : Option (List String) := none
  ai_ml : Option (List String) := none
  frameworks_libraries : Option (List String) := none
  development_platforms : Option (List String) := none
  cloud : Option (List String) := none
  deriving DecidableEq

structure ProjectRec where
  id : Option String := none
  title : Option String := none
  description : Option String := none
  long_description : Option String := none
  tech_stack : Option (List String) := none
  features : Option (List String) := none
  status : Option String := none
  category : Option String := none
  demo_url : Option String := none
  github_url : Option String := none
  image : Option String := none
  video : Option String := none
  documents : Option (List DocEntry) := none
  deriving DecidableEq

structure ExperienceRec where
  id : Option String := none
  role : Option String := none
  company : Option String := none
  duration : Option String := none
  location : Option String := none
  description : Option String := none
  responsibilities : Option (List String) := none
  technologies : Option (List String) := none
  deriving DecidableEq

structure EducationRec where
  id : Option String := none
  degree : Option String := none
  institution : Option String := none
  duration : Option String := none
  location : Option String := none
  description : Option String := none
  courses : Option (List String) := none
  deriving DecidableEq

structure CertificationRec where
  id : Option String := none
  name : Option String := none
  issuer : Option String := none
  date : Option String := none
  url : Option String := none
  deriving DecidableEq

structure ContactRec where
  availability : Option String := none
  social_github : Option String := none
  social_linkedin : Option String := none
  deriving DecidableEq

structure PortfolioData where
  profile : Option ProfileRec := none
  skills : Option SkillsRec := none
  projects : Option (List ProjectRec) := none
  experience : Option (List ExperienceRec) := none
  education : Option (List EducationRec) := none
  certifications : Option (List CertificationRec) := none
  contact : Option ContactRec := none
  deriving DecidableEq

/-- A retrieval chunk: `id`, synthesized `text`, `type` and metadata whose
values may be Python `None`. -/
structure Chunk where
  id : String
  text : String
  type : String
  metadata : List (String × Option String)
  deriving DecidableEq

/-- Python `record.get(key, default)` for string fields. -/
def gets (o : Option String) (d : String) : String := o.getD d

/-- Python `record.get(key, [])` for list fields. -/
def getl (o : Option (List String)) : List String := o.getD []

/-- Python `sep.join(l)`. -/
def joinWith (sep : String) : List String → String
  | [] => ""
  | [x] => x
  | x :: y :: xs => x ++ sep ++ joinWith sep (y :: xs)

/-- Python `', '.join(l)`. -/
def joinComma (l : List String) : String := joinWith ", " l

/-- Whitespace as Python `str.strip()` sees it (the characters the chunk
templates can produce). -/
def isSpaceChar (c : Char) : Bool :=
  c == ' ' || c == '\n' || c == '\t' || c == '\r'

/-- Python `s.strip()`. -/
def pyStrip (s : String) : String :=
  String.mk (((s.toList.dropWhile isSpaceChar).reverse.dropWhile isSpaceChar).reverse)

/-! ### `create_text_chunks` (loader.py lines 24-163) -/

def profileChunk (data : PortfolioData) : Chunk :=
  let profile := data.profile.getD {}
  let profile_text := "\n    Name: " ++ gets profile.name "Unknown"
    ++ "\n    Title: " ++ gets profile.title ""
    ++ "\n    Bio: " ++ gets profile.bio ""
    ++ "\n    Location: " ++ gets profile.location ""
    ++ "\n    "
  { id := "profile", text := pyStrip profile_text, type := "profile",
    metadata := [("section", some "about"), ("image_url", profile.avatar_image)] }

def skillsChunk (data : PortfolioData) : Chunk :=
  let skills := data.skills.getD {}
  let skills_text := "\n    Technical Skills:"
    ++ "\n    - Programming Languages: " ++ joinComma (getl skills.languages)
    ++ "\n    - AI/ML: " ++ joinComma (getl skills.ai_ml)
    ++ "\n    - Frameworks & Libraries: " ++ joinComma (getl skills.frameworks_libraries)
    ++ "\n    - Development Platforms: " ++ joinComma (getl skills.development_platforms)
    ++ "\n    - Cloud: " ++ joinComma (getl skills.cloud)
    ++ "\n    "
  { id := "skills", text := pyStrip skills_text, type := "skills",
    metadata := [("section", some "skills")] }

/-- One line of the project `documents` rendering: `loader.py` uses
`d['name']`, `d['type']`, `d['url']` (direct subscripts, raising on a
missing key). -/
def docLine (d : DocEntry) : Except String String :=
  match d.name, d.type, d.url with
  | some n, some t, some u => .ok ("- " ++ n ++ " (" ++ t ++ "): " ++ u)
  | _, _, _ => .error "KeyError"

/-- Monadic map for `Except`, short-circuiting on the first error exactly
like a Python loop that raises. -/
def mapExcept (f : α → Except String β) : List α → Except String (List β)
  | [] => .ok []
  | x :: xs =>
    match f x with
    | .error e => .error e
    | .ok y =>
      match mapExcept f xs with
      | .error e => .error e
      | .ok ys => .ok (y :: ys)

def projectMetadata (p : ProjectRec) : List (String × Option String) :=
  [("section", some "projects"), ("project_id", p.id), ("title", p.title),
   ("demo_url", p.demo_url), ("github_url", p.github_url),
   ("image_url", p.image), ("video_url", p.video)]

def projectChunk (p : ProjectRec) : Except String Chunk :=
  let base := "\n        Project: " ++ gets p.title ""
    ++ "\n        Description: " ++ gets p.description ""
    ++ "\n        Details: " ++ gets p.long_description ""
    ++ "\n        Technologies: " ++ joinComma (getl p.tech_stack)
    ++ "\n        Features: " ++ joinComma (getl p.features)
    ++ "\n        Status: " ++ gets p.status ""
    ++ "\n        Category: " ++ gets p.category ""
    ++ "\n        "
  match p.documents with
  | none =>
    .ok { id := "project-" ++ gets p.id "unknown", text := pyStrip base, type := "project",
          metadata := projectMetadata p }
  | some docs =>
    match mapExcept docLine docs with
    | .error e => .error e
    | .ok docLines =>
      let text := base ++ "\nDocuments:\n" ++ joinWith "\n" docLines ++ "\n"
      .ok { id := "project-" ++ gets p.id "unknown", text := pyStrip text, type := "project",
            metadata := projectMetadata p }

def expChunk (exp : ExperienceRec) : Chunk :=
  let exp_text := "\n        Experience: " ++ gets exp.role "" ++ " at " ++ gets exp.company ""
    ++ "\n        Duration: " ++ gets exp.duration ""
    ++ "\n        Location: " ++ gets exp.location ""
    ++ "\n        Description: " ++ gets exp.description ""
    ++ "\n        Responsibilities: " ++ joinComma (getl exp.responsibilities)
    ++ "\n        Technologies: " ++ joinComma (getl exp.technologies)
    ++ "\n        "
  { id := "experience-" ++ gets exp.id "unknown", text := pyStrip exp_text, type := "experience",
    metadata := [("section", some "experience"), ("company", exp.company)] }

def eduChunk (edu : EducationRec) : Chunk :=
  let edu_text := "\n        Education: " ++ gets edu.degree "" ++ " from " ++ gets edu.institution ""
    ++ "\n        Duration: " ++ gets edu.duration ""
    ++ "\n        Location: " ++ gets edu.location ""
    ++ "\n        Description: " ++ gets edu.description ""
    ++ "\n        Key Courses: " ++ joinComma (getl edu.courses)
    ++ "\n        "
  { id := "education-" ++ gets edu.id "unknown", text := pyStrip edu_text, type := "education",
    metadata := [("section", some "education"), ("institution", edu.institution)] }

def certChunk (cert : CertificationRec) : Chunk :=
  let cert_text := "\n        Certification: " ++ gets cert.name ""
    ++ "\n        Issuer: " ++ gets cert.issuer ""
    ++ "\n        Date: " ++ gets cert.date ""
    ++ "\n        URL: " ++ gets cert.url ""
    ++ "\n        "
  { id := "certification-" ++ gets cert.id "unknown", text := pyStrip cert_text, type := "certification",
    metadata := [("section", some "certifications"), ("name", cert.name)] }

def contactChunk (data : PortfolioData) : Chunk :=
  let contact := data.contact.getD {}
  let contact_text := "\n    Contact Information:"
    ++ "\n    Email: " ++ gets ((data.profile.getD {}).email) ""
    ++ "\n    Availability: " ++ gets contact.availability ""
    ++ "\n    Use email for contact."
    ++ "\n    GitHub: " ++ gets contact.social_github ""
    ++ "\n    LinkedIn: " ++ gets contact.social_linkedin ""
    ++ "\n    "
  { id := "contact", text := pyStrip contact_text, type := "contact",
    metadata := [("section", some "contact")] }

/-- `create_text_chunks` (loader.py lines 24-163): profile chunk, skills
chunk, one chunk per project / experience / education / certification, and
the contact chunk, in that order.  The only raising path is a project
`documents` entry missing a key, propagated as `.error`. -/
def create_text_chunks (data : PortfolioData) : Except String (List Chunk) :=
  match mapExcept projectChunk (data.projects.getD []) with
  | .error e => .error e
  | .ok projChunks =>
    .ok ([profileChunk data, skillsChunk data] ++ projChunks
      ++ (data.experience.getD []).map expChunk
      ++ (data.education.getD []).map eduChunk
      ++ (data.certifications.getD []).map certChunk
      ++ [contactChunk data])

/-- `clean_metadata` (loader.py lines 165-167): drop keys whose value is
Python `None`. -/
def clean_metadata (m : List (String × Option String)) : List (String × Option String) :=
  m.filter (fun kv => kv.2.isSome)

/-! ### `load_data` (loader.py lines 169-238)

The embedding services are oracles `String → Except String Nat` (the
vector values themselves are irrelevant, an opaque handle suffices); an
`.error` models a raised exception caught by the `try/except` around each
chunk / image.  `upsertCalls` records every invocation of
`upsert_vectors`. -/

structure VectorRec where
  id : String
  values : Nat
  metadata : List (String × Option String)
  deriving DecidableEq

/-- Python `chunk.get('metadata', {}).get(key)`: `none` for an absent key
or a stored `None`. -/
def dictGet (m : List (String × Option String)) (k : String) : Option String :=
  match m.find? (fun kv => kv.1 == k) with
  | some kv => kv.2
  | none => none

/-- Python `chunk.get('metadata', {}).get('title', chunk['id'])`: a stored
`None` renders as the string `"None"` inside the f-string. -/
def pyTitleOf (c : Chunk) : String :=
  match c.metadata.find? (fun kv => kv.1 == "title") with
  | some kv =>
    match kv.2 with
    | some s => s
    | none => "None"
  | none => c.id

/-- Text-embedding pass for one chunk (loader.py lines 185-204): build the
raw metadata `{"text": ..., "type": ..., **chunk.metadata}`, clean it, and
skip the chunk when its embedding raises. -/
def chunkTextVector (embedText : String → Except String Nat) (c : Chunk) : Option VectorRec :=
  match embedText c.text with
  | .error _ => none
  | .ok emb =>
    some { id := c.id, values := emb,
           metadata := clean_metadata
             (("text", some c.text) :: ("type", some c.type) :: c.metadata) }

/-- Image-embedding pass for one chunk (loader.py lines 208-231): only for
a truthy `image_url` starting with `http`; skip on embedding failure. -/
def chunkImageVector (embedImage : String → Except String Nat) (c : Chunk) : Option VectorRec :=
  match dictGet c.metadata "image_url" with
  | none => none
  | some url =>
    if url != "" && strStartsWith url "http" then
      match embedImage url with
      | .error _ => none
      | .ok emb =>
        some { id := c.id ++ "-image", values := emb,
               metadata := clean_metadata
                 (("text", some ("[Image for " ++ pyTitleOf c ++ "]"))
                   :: ("type", some (c.type ++ "_image"))
                   :: ("parent_id", some c.id) :: c.metadata) }
    else none

structure IngestionOutcome where
  vectors : List VectorRec
  upsertCalls : List (List VectorRec)
  success : Bool
  deriving DecidableEq

/-- `load_data` (loader.py lines 169-238): chunk the corpus, embed each
chunk's text and each eligible image (per-item failures are skipped), then
upsert the batch — unless it is empty, in which case the run reports
failure without calling `upsert_vectors`. -/
def load_data (data : PortfolioData) (embedText embedImage : String → Except String Nat) :
    Except String IngestionOutcome :=
  match create_text_chunks data with
  | .error e => .error e
  | .ok chunks =>
    let vectors := chunks.filterMap (chunkTextVector embedText)
      ++ chunks.filterMap (chunkImageVector embedImage)
    if vectors.isEmpty then
      .ok { vectors := vectors, upsertCalls := [], success := false }
    else
      .ok { vectors := vectors, upsertCalls := [vectors], success := true }

/-! ### Query-time retrieval loop (`chat_endpoint`, main.py lines 104-138)

Match metadata coming back from the index has no `None` values (they were
stripped by `clean_metadata` before upsert), so its values are plain
strings; `metadata.get(k, '')` is `sget`, `k in metadata` is `hasKey`.
Similarity scores are rationals. -/

abbrev SMeta := List (String × String)

/-- Python `metadata.get(k, d)`. -/
def sget (m : SMeta) (k d : String) : String :=
  match m.find? (fun kv => kv.1 == k) with
  | some kv => kv.2
  | none => d

/-- Python `k in metadata`. -/
def hasKey (m : SMeta) (k : String) : Bool :=
  (m.find? (fun kv => kv.1 == k)).isSome

structure MatchRec where
  id : String
  score : ℚ
  metadata : SMeta
  deriving DecidableEq

/-- One value of the `media_by_project` dict. -/
structure MediaEntry where
  images : List String
  videos : List String
  title : String
  deriving DecidableEq

/-- The loop state of `chat_endpoint`'s retrieval pass: the accumulated
context, the insertion-ordered `media_by_project` dict, and the last
profile image seen. -/
structure RetState where
  context_text : String
  media : List (String × MediaEntry)
  profile_image : Option String
  deriving DecidableEq

/-- The relevance threshold of main.py line 117 (0.25, written as a kernel-
computable rational). -/
def THRESHOLD : ℚ := mkRat 1 4

/-- Update the entry stored under key `k` of the `media_by_project` dict. -/
def updEntry (m : List (String × MediaEntry)) (k : String) (f : MediaEntry → MediaEntry) :
    List (String × MediaEntry) :=
  m.map (fun kv => if kv.1 == k then (kv.1, f kv.2) else kv)

/-- Body of the `for match in search_results` loop (main.py lines 110-136). -/
def processMatch (st : RetState) (mt : MatchRec) : RetState :=
  let md := mt.metadata
  let text := sget md "text" ""
  let match_type := sget md "type" ""
  let project_id := sget md "project_id" ""
  if THRESHOLD < mt.score then
    let st1 : RetState := { st with context_text := st.context_text ++ text ++ "\n---\n" }
    let st2 : RetState :=
      if match_type == "profile" && hasKey md "image_url" then
        { st1 with profile_image := some (sget md "image_url" "") }
      else st1
    if match_type == "project" && project_id != "" then
      let media0 :=
        if (st2.media.find? (fun kv => kv.1 == project_id)).isSome then st2.media
        else st2.media
          ++ [(project_id, { images := [], videos := [], title := sget md "title" "Project" })]
      let media1 :=
        if hasKey md "image_url" && sget md "image_url" "" != "" then
          updEntry media0 project_id
            (fun e => { e with images := e.images ++ [sget md "image_url" ""] })
        else media0
      let media2 :=
        if hasKey md "video_url" && sget md "video_url" "" != "" then
          updEntry media1 project_id
            (fun e => { e with videos := e.videos ++ [sget md "video_url" ""] })
        else media1
      { st2 with media := media2 }
    else st2
  else st

def initState : RetState := { context_text := "", media := [], profile_image := none }

/-- The whole retrieval loop over the ranked matches. -/
def collectMatches (ms : List MatchRec) : RetState :=
  ms.foldl processMatch initState

/-! ### Intent heuristics (main.py lines 38-71) -/

def PROJECT_KEYWORDS : List (String × List String) :=
  [("3d-mri-sr",
     ["mri", "3d mri", "super resolution", "medical imaging", "brain scan",
      "mri video", "mri project"]),
   ("verdex-mobile-app",
     ["verdex", "crop disease", "farmer", "mobile app", "agriculture"]),
   ("diabetic-retinopathy",
     ["diabetic", "retinopathy", "fundus", "eye disease"]),
   ("melanoma-classification",
     ["melanoma", "skin cancer", "dermoscopic", "siim-isic"]),
   ("sinhala-rag",
     ["sinhala fact", "fact-checking", "misinformation", "sinhala rag"]),
   ("sinhala-idioms",
     ["idioms", "sinhala idioms", "translation"])]

def PROFILE_KEYWORDS : List String :=
  ["who are you", "about yourself", "your photo", "your picture", "your image",
   "show yourself"]

/-- The media-request words of `should_show_media` (main.py line 69). -/
def MEDIA_WORDS : List String :=
  ["show", "image", "picture", "photo", "video", "demo", "visual", "see", "watch"]

/-- `get_matched_project_ids` (main.py lines 51-60), as the insertion-ordered
list of matched project ids (Python returns them as a set). -/
def get_matched_project_ids (query : String) : List String :=
  let ql := pyLower query
  (PROJECT_KEYWORDS.filter (fun pk => pk.2.any (fun kw => strContains ql kw))).map
    (fun pk => pk.1)

/-- `should_show_profile_image` (main.py lines 62-65). -/
def should_show_profile_image (query : String) : Bool :=
  let ql := pyLower query
  PROFILE_KEYWORDS.any (fun kw => strContains ql kw)

/-- `should_show_media` (main.py lines 67-71). -/
def should_show_media (query : String) : Bool :=
  let ql := pyLower query
  MEDIA_WORDS.any (fun w => strContains ql w)

/-! ### Media selection and answer composition (main.py lines 153-194) -/

/-- Python truthiness filter for the collected profile image. -/
def truthyList : Option String → List String
  | some p => if p == "" then [] else [p]
  | none => []

/-- The profile-image contribution to `final_images` (main.py lines 157-160). -/
def profilePart (query : String) (st : RetState) : List String :=
  if should_show_profile_image query then truthyList st.profile_image else []

/-- `final_images` / `final_videos` after the smart-media-attachment block
and the `dict.fromkeys` de-duplication (main.py lines 153-182). -/
def finalMedia (query : String) (st : RetState) : List String × List String :=
  if should_show_media query then
    let sel := (get_matched_project_ids query).filterMap
      (fun pid => (st.media.find? (fun kv => kv.1 == pid)).map (fun kv => kv.2))
    (dedupFirst (profilePart query st ++ sel.flatMap (fun e => e.images)),
     dedupFirst (sel.flatMap (fun e => e.videos)))
  else
    (dedupFirst (profilePart query st),
     dedupFirst (st.media.flatMap (fun kv => kv.2.videos)))

/-- The image-appending loop of main.py lines 188-190, returning the grown
text together with the list of urls actually appended. -/
def appendImgs : String → List String → String × List String
  | t, [] => (t, [])
  | t, img :: rest =>
    if strContains t img then appendImgs t rest
    else
      let r := appendImgs (t ++ "![Visual](" ++ img ++ ")\n") rest
      (r.1, img :: r.2)

/-- The video-appending loop of main.py lines 192-194. -/
def appendVids : String → List String → String × List String
  | t, [] => (t, [])
  | t, vid :: rest =>
    if strContains t vid then appendVids t rest
    else
      let r := appendVids (t ++ "\n🎥 **Watch Video:** [Project Demo](" ++ vid ++ ")\n") rest
      (r.1, vid :: r.2)

/-- Final answer composition (main.py lines 184-194): append a Visuals
section listing the candidate urls not already present in the text. -/
def compose (response_text : String) (final_images final_videos : List String) : String :=
  if final_images.isEmpty && final_videos.isEmpty then response_text
  else
    let t0 := response_text ++ "\n\n**Visuals:**\n"
    let t1 := appendImgs t0 final_images
    (appendVids t1.1 final_videos).1

/-! ### Spec-modelled normalized title match -/

/-- Modelled from the spec: the spec's normalization "lowercase, strip all
non-alphanumeric characters" used by the normalized-substring title match
of §4.6 rule 2; no such normalization exists in `src/main.py` (only the
literal keyword-to-project-id mapping does), so this definition follows
the spec's words. -/
def normalize (s : String) : String :=
  String.mk ((pyLower s).toList.filter (fun c => c.isAlphanum))

/-- Modelled from the spec: "a match requires the normalized title, length
> 3, to be a substring of the normalized query" (§4.6 rule 2); absent from
`src/main.py`. -/
def normTitleMatch (title query : String) : Bool :=
  decide (3 < (normalize title).toList.length)
    && listHasSub (normalize title).toList (normalize query).toList

/-- The media-request word list exactly as claim C4 states it
(show/image/picture/video/demo/see/watch/visual) — note it lacks the
`"photo"` entry that `should_show_media` in main.py line 69 also accepts. -/
def CLAIM_MEDIA_WORDS : List String :=
  ["show", "image", "picture", "video", "demo", "see", "watch", "visual"]

/-! ### Sample corpus data used by the witnesses -/

def sampleProject : ProjectRec :=
  { id := some "p1", title := some "Verdex", image := some "http://x/img.png" }

def sampleData : PortfolioData :=
  { profile := some { name := some "M", avatar_image := some "http://p/avatar.png" },
    projects := some [sampleProject] }

/-! ### Lemmas about `mapExcept` -/

theorem mapExcept_length {f : α → Except String β} :
    ∀ {l : List α} {ys : List β}, mapExcept f l = .ok ys → ys.length = l.length := by
  intro l
  induction l with
  | nil => intro ys h; simp [mapExcept] at h; simp [← h]
  | cons x xs ih =>
    intro ys h
    simp only [mapExcept] at h
    cases hx : f x with
    | error e => rw [hx] at h; exact absurd h (by simp)
    | ok y =>
      rw [hx] at h
      cases hxs : mapExcept f xs with
      | error e => rw [hxs] at h; exact absurd h (by simp)
      | ok ys' =>
        rw [hxs] at h
        cases h
        simp [ih hxs]

theorem mapExcept_mem {f : α → Except String β} :
    ∀ {l : List α} {ys : List β}, mapExcept f l = .ok ys →
      ∀ y ∈ ys, ∃ x ∈ l, f x = .ok y := by
  intro l
  induction l with
  | nil =>
    intro ys h
    simp only [mapExcept, Except.ok.injEq] at h
    intro y hy
    rw [← h] at hy
    cases hy
  | cons x xs ih =>
    intro ys h
    simp only [mapExcept] at h
    cases hx : f x with
    | error e => rw [hx] at h; exact absurd h (by simp)
    | ok y =>
      rw [hx] at h
      cases hxs : mapExcept f xs with
      | error e => rw [hxs] at h; exact absurd h (by simp)
      | ok ys' =>
        rw [hxs] at h
        cases h
        intro z hz
        rcases List.mem_cons.mp hz with hz | hz
        · exact ⟨x, List.mem_cons_self _ _, hz ▸ hx⟩
        · rcases ih hxs z hz with ⟨w, hw, hfw⟩
          exact ⟨w, List.mem_cons_of_mem _ hw, hfw⟩

theorem mapExcept_ok_of_all {f : α → Except String β} :
    ∀ {l : List α}, (∀ x ∈ l, ∃ y, f x = .ok y) → ∃ ys, mapExcept f l = .ok ys := by
  intro l
  induction l with
  | nil => intro _; exact ⟨[], rfl⟩
  | cons x xs ih =>
    intro h
    rcases h x (List.mem_cons_self _ _) with ⟨y, hy⟩
    rcases ih (fun z hz => h z (List.mem_cons_of_mem _ hz)) with ⟨ys, hys⟩
    exact ⟨y :: ys, by simp only [mapExcept, hy, hys]⟩

theorem projectChunk_type {p : ProjectRec} {c : Chunk}
    (h : projectChunk p = .ok c) : c.type = "project" := by
  simp only [projectChunk] at h
  split at h
  · cases h; rfl
  · split at h
    · exact absurd h (by simp)
    · cases h; rfl

/-! ### Per-type chunk counting -/

/-- Number of chunks of a given `type`. -/
def countType (chunks : List Chunk) (t : String) : Nat :=
  (chunks.filter (fun c => c.type == t)).length

theorem countType_append (a b : List Chunk) (t : String) :
    countType (a ++ b) t = countType a t + countType b t := by
  simp [countType, List.filter_append]

theorem countType_allType {l : List Chunk} {t : String}
    (h : ∀ c ∈ l, c.type = t) (T : String) :
    countType l T = if t == T then l.length else 0 := by
  induction l with
  | nil => cases hb : (t == T) <;> simp [countType, hb]
  | cons c cs ih =>
    have hc : c.type = t := h c (List.mem_cons_self _ _)
    have ih' := ih (fun d hd => h d (List.mem_cons_of_mem _ hd))
    simp only [countType, List.filter_cons] at ih' ⊢
    cases hb : (t == T) with
    | true =>
      have : (c.type == T) = true := by rw [hc]; exact hb
      simp only [this, if_pos rfl, List.length_cons, hb] at ih' ⊢
      simp [ih']
    | false =>
      have : (c.type == T) = false := by rw [hc]; exact hb
      simp only [this, hb] at ih' ⊢
      simpa using ih'

theorem countType_map {α : Type} (g : α → Chunk) (l : List α) {t : String}
    (h : ∀ a : α, (g a).type = t) (T : String) :
    countType (l.map g) T = if t == T then l.length else 0 := by
  rw [countType_allType (by intro c hc; rcases List.mem_map.mp hc with ⟨a, _, rfl⟩; exact h a) T]
  simp

/-- C1: for every portfolio corpus on which `create_text_chunks` returns,
the result has exactly one profile chunk, one skills chunk and one contact
chunk, plus exactly one chunk per element of the projects, experience,
education and certifications lists, so the total chunk count is
`3 + len(projects) + len(experience) + len(education) + len(certifications)`. -/
theorem chunk_count (data : PortfolioData) (chunks : List Chunk)
    (h : create_text_chunks data = .ok chunks) :
    chunks.length = 3 + (data.projects.getD []).length + (data.experience.getD []).length
        + (data.education.getD []).length + (data.certifications.getD []).length
      ∧ countType chunks "profile" = 1
      ∧ countType chunks "skills" = 1
      ∧ countType chunks "contact" = 1
      ∧ countType chunks "project" = (data.projects.getD []).length
      ∧ countType chunks "experience" = (data.experience.getD []).length
      ∧ countType chunks "education" = (data.education.getD []).length
      ∧ countType chunks "certification" = (data.certifications.getD []).length := by
  unfold create_text_chunks at h
  cases hm : mapExcept projectChunk (data.projects.getD []) with
  | error e => rw [hm] at h; exact absurd h (by simp)
  | ok projChunks =>
    rw [hm] at h
    cases h
    have hplen : projChunks.length = (data.projects.getD []).length := mapExcept_length hm
    have hptype : ∀ c ∈ projChunks, c.type = "project" := by
      intro c hc
      rcases mapExcept_mem hm c hc with ⟨p, _, hp⟩
      exact projectChunk_type hp
    have hhead : ∀ T, countType [profileChunk data, skillsChunk data] T
        = (if "profile" == T then 1 else 0) + (if "skills" == T then 1 else 0) := by
      intro T
      simp only [countType, List.filter_cons, List.filter_nil]
      cases hb1 : ("profile" == T) <;> cases hb2 : ("skills" == T) <;>
        simp [profileChunk, skillsChunk, hb1, hb2]
    have htail : ∀ T, countType [contactChunk data] T = if "contact" == T then 1 else 0 := by
      intro T
      simp only [countType, List.filter_cons, List.filter_nil]
      cases hb : ("contact" == T) <;> simp [contactChunk, hb]
    refine ⟨?_, ?_, ?_, ?_, ?_, ?_, ?_, ?_⟩ <;>
      simp only [countType_append, List.length_append, hhead, htail,
        countType_allType hptype, countType_map expChunk _ (fun a => rfl),
        countType_map eduChunk _ (fun a => rfl), countType_map certChunk _ (fun a => rfl),
        List.length_map, List.length_cons, List.length_nil, hplen] <;>
      simp <;> omega

/-- C1 witness: `create_text_chunks` on the sample corpus (one project, no
experience / education / certifications) returns four chunks with the
stated per-type counts. -/
theorem chunk_count_witness :
    ((create_text_chunks sampleData).toOption.getD []).length
        = 3 + (sampleData.projects.getD []).length + (sampleData.experience.getD []).length
          + (sampleData.education.getD []).length + (sampleData.certifications.getD []).length
      ∧ countType ((create_text_chunks sampleData).toOption.getD []) "profile" = 1
      ∧ countType ((create_text_chunks sampleData).toOption.getD []) "skills" = 1
      ∧ countType ((create_text_chunks sampleData).toOption.getD []) "contact" = 1
      ∧ countType ((create_text_chunks sampleData).toOption.getD []) "project"
          = (sampleData.projects.getD []).length
      ∧ countType ((create_text_chunks sampleData).toOption.getD []) "experience"
          = (sampleData.experience.getD []).length
      ∧ countType ((create_text_chunks sampleData).toOption.getD []) "education"
          = (sampleData.education.getD []).length
      ∧ countType ((create_text_chunks sampleData).toOption.getD []) "certification"
          = (sampleData.certifications.getD []).length :=
  chunk_count sampleData ((create_text_chunks sampleData).toOption.getD []) (by rfl)

/-! ### C9: totality of the chunker -/

/-- A corpus with one project whose `documents` list holds an entry with
no keys at all: `loader.py` line 79 evaluates `d['name']` on it. -/
def badData : PortfolioData :=
  { projects := some [{ documents := some [{}] }] }

/-- C9 counterexample: `create_text_chunks` does raise on a malformed
corpus — a project `documents` entry without a `name` key makes
`d['name']` (loader.py line 79) raise `KeyError`, so the chunker is not
total and the `documents` accessors do not default. -/
theorem chunker_total_cex :
    create_text_chunks badData = .error "KeyError" := by rfl

/-- Every `documents` entry of every project carries all three keys the
rendering subscripts directly. -/
def docsComplete (data : PortfolioData) : Prop :=
  ∀ p ∈ data.projects.getD [], ∀ d ∈ p.documents.getD [],
    d.name.isSome = true ∧ d.type.isSome = true ∧ d.url.isSome = true

instance (data : PortfolioData) : Decidable (docsComplete data) := by
  unfold docsComplete
  infer_instance

theorem docLine_ok {d : DocEntry} (h1 : d.name.isSome = true)
    (h2 : d.type.isSome = true) (h3 : d.url.isSome = true) :
    ∃ s, docLine d = .ok s := by
  rcases Option.isSome_iff_exists.mp h1 with ⟨n, hn⟩
  rcases Option.isSome_iff_exists.mp h2 with ⟨t, ht⟩
  rcases Option.isSome_iff_exists.mp h3 with ⟨u, hu⟩
  refine ⟨"- " ++ n ++ " (" ++ t ++ "): " ++ u, ?_⟩
  simp only [docLine, hn, ht, hu]

theorem projectChunk_ok {p : ProjectRec}
    (h : ∀ d ∈ p.documents.getD [], d.name.isSome = true ∧ d.type.isSome = true
      ∧ d.url.isSome = true) :
    ∃ c, projectChunk p = .ok c := by
  cases hd : p.documents with
  | none => exact ⟨_, by simp only [projectChunk, hd]; rfl⟩
  | some docs =>
    have hall : ∀ d ∈ docs, ∃ s, docLine d = .ok s := by
      intro d hdm
      rcases h d (by rw [hd]; exact hdm) with ⟨h1, h2, h3⟩
      exact docLine_ok h1 h2 h3
    rcases mapExcept_ok_of_all hall with ⟨ls, hls⟩
    exact ⟨_, by simp only [projectChunk, hd, hls]; rfl⟩

/-- C9 amended: the claim fails only at the project `documents` rendering
(which subscripts `d['name']`, `d['type']`, `d['url']` directly); for
every corpus whose project document entries all carry those three keys,
`create_text_chunks` raises no exception, every other field accessor
defaulting to an empty string or list. -/
theorem chunker_total_amended (data : PortfolioData) (h : docsComplete data) :
    ∃ chunks, create_text_chunks data = .ok chunks := by
  unfold create_text_chunks
  have hall : ∀ p ∈ data.projects.getD [], ∃ c, projectChunk p = .ok c :=
    fun p hp => projectChunk_ok (h p hp)
  rcases mapExcept_ok_of_all hall with ⟨cs, hcs⟩
  rw [hcs]
  exact ⟨_, rfl⟩

/-- C9 amended witness: the sample corpus (whose single project has no
`documents` key) satisfies the document-completeness hypothesis and chunks
without an error. -/
theorem chunker_total_amended_witness :
    docsComplete sampleData ∧ ∃ chunks, create_text_chunks sampleData = .ok chunks :=
  ⟨by decide, chunker_total_amended sampleData (by decide)⟩

/-! ### C6: `clean_metadata` and null-free vectors -/

theorem chunkTextVector_metadata {et : String → Except String Nat} {c : Chunk}
    {v : VectorRec} (h : chunkTextVector et c = some v) :
    ∃ raw, v.metadata = clean_metadata raw := by
  unfold chunkTextVector at h
  cases he : et c.text with
  | error e => rw [he] at h; cases h
  | ok emb => rw [he] at h; cases h; exact ⟨_, rfl⟩

theorem chunkImageVector_metadata {ei : String → Except String Nat} {c : Chunk}
    {v : VectorRec} (h : chunkImageVector ei c = some v) :
    ∃ raw, v.metadata = clean_metadata raw := by
  unfold chunkImageVector at h
  cases hu : dictGet c.metadata "image_url" with
  | none => rw [hu] at h; cases h
  | some url =>
    simp only [hu] at h
    by_cases hc : (url != "" && strStartsWith url "http") = true
    · rw [if_pos hc] at h
      cases he : ei url with
      | error e => rw [he] at h; cases h
      | ok emb => rw [he] at h; cases h; exact ⟨_, rfl⟩
    · rw [if_neg hc] at h; cases h

theorem clean_metadata_no_none {raw : List (String × Option String)} :
    ∀ kv ∈ clean_metadata raw, kv.2 ≠ none := by
  intro kv hkv
  have := (List.mem_filter.mp hkv).2
  simpa [Option.isSome_iff_ne_none] using this

/-- C6: `clean_metadata m` holds exactly the key-value pairs of `m` whose
value is not null, each unchanged; consequently every vector `load_data`
builds for the index — text vectors and image vectors alike — carries no
null-valued metadata key. -/
theorem clean_metadata_spec :
    (∀ (m : List (String × Option String)) (k : String) (v : Option String),
      ((k, v) ∈ clean_metadata m ↔ (k, v) ∈ m ∧ v ≠ none)) ∧
    (∀ (data : PortfolioData) (et ei : String → Except String Nat)
        (out : IngestionOutcome), load_data data et ei = .ok out →
      ∀ vec ∈ out.vectors, ∀ kv ∈ vec.metadata, kv.2 ≠ none) := by
  constructor
  · intro m k v
    constructor
    · intro h
      rcases List.mem_filter.mp h with ⟨hm, hs⟩
      exact ⟨hm, by simpa [Option.isSome_iff_ne_none] using hs⟩
    · intro ⟨hm, hv⟩
      exact List.mem_filter.mpr ⟨hm, by simpa [Option.isSome_iff_ne_none] using hv⟩
  · intro data et ei out hload vec hvec kv hkv
    unfold load_data at hload
    cases hc : create_text_chunks data with
    | error e => rw [hc] at hload; cases hload
    | ok chunks =>
      rw [hc] at hload
      have hvecs : vec ∈ chunks.filterMap (chunkTextVector et)
          ++ chunks.filterMap (chunkImageVector ei) := by
        by_cases hemp : (chunks.filterMap (chunkTextVector et)
            ++ chunks.filterMap (chunkImageVector ei)).isEmpty = true
        · simp only [hemp, if_pos] at hload
          cases hload
          exact hvec
        · simp only [hemp, if_neg, Bool.false_eq_true, not_false_iff] at hload
          cases hload
          exact hvec
      rcases List.mem_append.mp hvecs with hv | hv
      · rcases List.mem_filterMap.mp hv with ⟨c, _, hc2⟩
        rcases chunkTextVector_metadata hc2 with ⟨raw, hraw⟩
        rw [hraw] at hkv
        exact clean_metadata_no_none kv hkv
      · rcases List.mem_filterMap.mp hv with ⟨c, _, hc2⟩
        rcases chunkImageVector_metadata hc2 with ⟨raw, hraw⟩
        rw [hraw] at hkv
        exact clean_metadata_no_none kv hkv

/-- Embedding oracle that always succeeds, for the witnesses. -/
def embed0 : String → Except String Nat := fun _ => .ok 0

/-- The ingestion outcome on the sample corpus with the always-succeeding
embedder. -/
def sampleOutcome : IngestionOutcome :=
  (load_data sampleData embed0 embed0).toOption.getD
    { vectors := [], upsertCalls := [], success := false }

/-- C6 witness: instantiating both parts on concrete data — a pair
survives `clean_metadata` exactly when its value is non-null, and a
concrete metadata entry of a concrete ingested vector is non-null. -/
theorem clean_metadata_spec_witness :
    (("a", some "x") ∈ clean_metadata [("a", some "x"), ("b", (none : Option String))]
      ↔ ("a", some "x") ∈ [("a", some "x"), ("b", (none : Option String))]
          ∧ (some "x" : Option String) ≠ none)
    ∧ (("type", some "profile") : String × Option String).2 ≠ none :=
  ⟨clean_metadata_spec.1 [("a", some "x"), ("b", none)] "a" (some "x"),
   clean_metadata_spec.2 sampleData embed0 embed0 sampleOutcome (by rfl)
     (sampleOutcome.vectors.getD 0
       { id := "", values := 0, metadata := [] }) (by decide)
     ("type", some "profile") (by decide)⟩

/-! ### C7: per-item fault isolation of the ingestion pipeline -/

/-- Whether an embedding call succeeds. -/
def embOk (r : Except String Nat) : Bool :=
  match r with
  | .ok _ => true
  | .error _ => false

theorem length_filterMap_eq_filter {α β : Type} (f : α → Option β) (l : List α) :
    (l.filterMap f).length = (l.filter (fun a => (f a).isSome)).length := by
  induction l with
  | nil => rfl
  | cons x xs ih =>
    cases hx : f x <;> simp [List.filterMap_cons, List.filter_cons, hx, ih]

theorem chunkTextVector_isSome (et : String → Except String Nat) (c : Chunk) :
    (chunkTextVector et c).isSome = embOk (et c.text) := by
  unfold chunkTextVector embOk
  cases et c.text <;> rfl

/-- C7: the ingestion pipeline is fault-isolated per item: whenever
`load_data` returns, (a) every chunk whose text embedding succeeds
contributes its vector to the batch, whatever happens to the other chunks
and images; (b) the batch size is exactly the number of chunks whose text
embedding succeeds plus the number of chunks carrying an eligible image
whose embedding succeeds — a failing item loses only its own vector; and
(c) when the batch is empty, `upsert_vectors` is never called and the run
reports failure. -/
theorem ingestion_isolation (data : PortfolioData) (et ei : String → Except String Nat)
    (chunks : List Chunk) (out : IngestionOutcome)
    (hc : create_text_chunks data = .ok chunks)
    (hl : load_data data et ei = .ok out) :
    (∀ c ∈ chunks, ∀ emb, et c.text = .ok emb →
        ({ id := c.id, values := emb,
           metadata := clean_metadata
             (("text", some c.text) :: ("type", some c.type) :: c.metadata) } : VectorRec)
          ∈ out.vectors)
      ∧ out.vectors.length
          = (chunks.filter (fun c => embOk (et c.text))).length
            + (chunks.filter (fun c => (chunkImageVector ei c).isSome)).length
      ∧ (out.vectors = [] → out.upsertCalls = [] ∧ out.success = false) := by
  unfold load_data at hl
  rw [hc] at hl
  have hvecs : out.vectors = chunks.filterMap (chunkTextVector et)
      ++ chunks.filterMap (chunkImageVector ei) := by
    by_cases hemp : (chunks.filterMap (chunkTextVector et)
        ++ chunks.filterMap (chunkImageVector ei)).isEmpty = true
    · simp only [hemp, if_pos] at hl; cases hl; rfl
    · simp only [hemp, if_neg, Bool.false_eq_true, not_false_iff] at hl; cases hl; rfl
  refine ⟨?_, ?_, ?_⟩
  · intro c hcm emb hemb
    rw [hvecs]
    refine List.mem_append_left _ (List.mem_filterMap.mpr ⟨c, hcm, ?_⟩)
    unfold chunkTextVector
    rw [hemb]
  · rw [hvecs]
    rw [List.length_append, length_filterMap_eq_filter, length_filterMap_eq_filter]
    congr 2
    exact List.filter_congr (fun c _ => chunkTextVector_isSome et c)
  · intro hnil
    by_cases hemp : (chunks.filterMap (chunkTextVector et)
        ++ chunks.filterMap (chunkImageVector ei)).isEmpty = true
    · simp only [hemp, if_pos] at hl; cases hl; exact ⟨rfl, rfl⟩
    · simp only [hemp, if_neg, Bool.false_eq_true, not_false_iff] at hl
      cases hl
      rw [hvecs] at hnil
      rw [hnil] at hemp
      exact absurd rfl hemp

/-- C7 witness: on the sample corpus with the always-succeeding embedder,
the profile chunk's text vector is in the upserted batch. -/
theorem ingestion_isolation_witness :
    ({ id := (profileChunk sampleData).id, values := 0,
       metadata := clean_metadata
         (("text", some (profileChunk sampleData).text)
           :: ("type", some (profileChunk sampleData).type)
           :: (profileChunk sampleData).metadata) } : VectorRec)
      ∈ sampleOutcome.vectors :=
  (ingestion_isolation sampleData embed0 embed0
      ((create_text_chunks sampleData).toOption.getD []) sampleOutcome
      (by rfl) (by rfl)).1
    (profileChunk sampleData) (by decide) 0 (by rfl)

/-! ### C2: matches at or below the relevance threshold are discarded -/

theorem processMatch_low (st : RetState) (mt : MatchRec) (h : mt.score ≤ THRESHOLD) :
    processMatch st mt = st := by
  simp only [processMatch]
  rw [if_neg (not_lt.mpr h)]

theorem foldl_processMatch_filter :
    ∀ (ms : List MatchRec) (st : RetState),
      ms.foldl processMatch st
        = (ms.filter (fun mt => decide (THRESHOLD < mt.score))).foldl processMatch st := by
  intro ms
  induction ms with
  | nil => intro st; rfl
  | cons mt rest ih =>
    intro st
    by_cases h : THRESHOLD < mt.score
    · rw [List.filter_cons_of_pos (by simpa using h)]
      simp only [List.foldl_cons]
      exact ih _
    · rw [List.filter_cons_of_neg (by simpa using h)]
      simp only [List.foldl_cons]
      rw [processMatch_low st mt (not_lt.mp h)]
      exact ih st

/-- C2: the threshold is 0.25, a match scoring at or below it leaves the
loop state untouched (no context, no media candidate, no profile image),
a match scoring strictly above it appends its metadata text followed by
the delimiter line to the context, and the whole retrieval loop equals the
loop run on only the above-threshold matches. -/
theorem threshold_filter :
    THRESHOLD = 1 / 4
    ∧ (∀ (st : RetState) (mt : MatchRec), mt.score ≤ THRESHOLD → processMatch st mt = st)
    ∧ (∀ (st : RetState) (mt : MatchRec), THRESHOLD < mt.score →
        (processMatch st mt).context_text
          = st.context_text ++ sget mt.metadata "text" "" ++ "\n---\n")
    ∧ (∀ ms : List MatchRec,
        collectMatches ms
          = collectMatches (ms.filter (fun mt => decide (THRESHOLD < mt.score)))) := by
  refine ⟨by norm_num [THRESHOLD, mkRat, Rat.normalize], processMatch_low, ?_, ?_⟩
  · intro st mt h
    simp only [processMatch]
    rw [if_pos h]
    split
    · split <;> rfl
    · split <;> rfl
  · intro ms
    exact foldl_processMatch_filter ms initState

/-- A match scoring below the threshold, used to instantiate C2. -/
def lowMatch : MatchRec :=
  { id := "m-low", score := mkRat 1 10,
    metadata := [("text", "T"), ("type", "project"), ("project_id", "p9"),
                 ("image_url", "http://low/img.png")] }

/-- C2 witness: a concrete below-threshold match (score 1/10) carrying
text, a project id and an image url changes nothing in the loop state. -/
theorem threshold_filter_witness :
    lowMatch.score ≤ THRESHOLD ∧ processMatch initState lowMatch = initState :=
  ⟨by decide, threshold_filter.2.1 initState lowMatch (by decide)⟩

/-! ### C8: which matches register media candidates, and under which key -/

theorem find?_append_none {α : Type} (p : α → Bool) {l₁ : List α} (l₂ : List α)
    (h : l₁.find? p = none) : (l₁ ++ l₂).find? p = l₂.find? p := by
  induction l₁ with
  | nil => rfl
  | cons x xs ih =>
    cases hx : p x with
    | true => rw [List.find?_cons_of_pos _ hx] at h; cases h
    | false =>
      rw [List.find?_cons_of_neg _ (by simp [hx])] at h
      rw [List.cons_append, List.find?_cons_of_neg _ (by simp [hx])]
      exact ih h

theorem find?_updEntry (m : List (String × MediaEntry)) (k : String)
    (f : MediaEntry → MediaEntry) :
    (updEntry m k f).find? (fun kv => kv.1 == k)
      = (m.find? (fun kv => kv.1 == k)).map (fun kv => (kv.1, f kv.2)) := by
  induction m with
  | nil => rfl
  | cons kv rest ih =>
    simp only [updEntry, List.map_cons] at ih ⊢
    by_cases h : (kv.1 == k) = true
    · simp [List.find?, h]
    · have h2 : (kv.1 == k) = false := by simpa using h
      simp only [List.find?, h2, if_neg h]
      simpa [List.find?, h2] using ih

/-- The `if project_id not in media_by_project` initialisation always
leaves an entry under `project_id`. -/
theorem find?_ensure (media : List (String × MediaEntry)) (pid tl : String) :
    ∃ e, ((if (media.find? (fun kv => kv.1 == pid)).isSome then media
          else media ++ [(pid, { images := [], videos := [], title := tl })]).find?
        (fun kv => kv.1 == pid)) = some (pid, e) := by
  by_cases hf : (media.find? (fun kv => kv.1 == pid)).isSome = true
  · rw [if_pos hf]
    rcases Option.isSome_iff_exists.mp hf with ⟨kv, hkv⟩
    have hk1 : kv.1 = pid := by simpa using List.find?_some hkv
    exact ⟨kv.2, by rw [hkv, ← hk1]⟩
  · rw [if_neg hf]
    rw [find?_append_none _ _ (Option.not_isSome_iff_eq_none.mp (by simpa using hf))]
    exact ⟨_, List.find?_cons_of_pos _ (by simp)⟩

/-- C8 amended: a retrieved match registers media candidates only when its
type is `"project"` and its `project_id` is nonempty — a non-project match
(or a project match without an id) leaves `media_by_project` untouched
regardless of any `image_url`/`video_url` it carries, so non-project media
is never collected under a chunk id; and an above-threshold project match
with a truthy `image_url` (resp. `video_url`) does get that url recorded
in the images (resp. videos) of the entry keyed by its `project_id`. -/
theorem media_registration :
    (∀ (st : RetState) (mt : MatchRec),
        sget mt.metadata "type" "" ≠ "project" ∨ sget mt.metadata "project_id" "" = "" →
        (processMatch st mt).media = st.media)
    ∧ (∀ (st : RetState) (mt : MatchRec),
        THRESHOLD < mt.score →
        sget mt.metadata "type" "" = "project" →
        sget mt.metadata "project_id" "" ≠ "" →
        hasKey mt.metadata "image_url" = true →
        sget mt.metadata "image_url" "" ≠ "" →
        ∃ e, (processMatch st mt).media.find?
                (fun kv => kv.1 == sget mt.metadata "project_id" "")
              = some (sget mt.metadata "project_id" "", e)
          ∧ sget mt.metadata "image_url" "" ∈ e.images)
    ∧ (∀ (st : RetState) (mt : MatchRec),
        THRESHOLD < mt.score →
        sget mt.metadata "type" "" = "project" →
        sget mt.metadata "project_id" "" ≠ "" →
        hasKey mt.metadata "video_url" = true →
        sget mt.metadata "video_url" "" ≠ "" →
        ∃ e, (processMatch st mt).media.find?
                (fun kv => kv.1 == sget mt.metadata "project_id" "")
              = some (sget mt.metadata "project_id" "", e)
          ∧ sget mt.metadata "video_url" "" ∈ e.videos) := by
  refine ⟨?_, ?_, ?_⟩
  · intro st mt h
    simp only [processMatch]
    split
    · have hC : ¬ ((sget mt.metadata "type" "" == "project"
          && sget mt.metadata "project_id" "" != "") = true) := by
        rcases h with h | h <;> simp [h]
      rw [if_neg hC]
      split <;> rfl
    · rfl
  · intro st mt hs ht hp hk hu
    have hC : (sget mt.metadata "type" "" == "project"
        && sget mt.metadata "project_id" "" != "") = true := by
      simp [ht, hp]
    have hI : (hasKey mt.metadata "image_url"
        && sget mt.metadata "image_url" "" != "") = true := by
      simp [hk, hu]
    simp only [processMatch]
    rw [if_pos hs, if_pos hC]
    split
    · dsimp only
      rcases find?_ensure st.media (sget mt.metadata "project_id" "")
        (sget mt.metadata "title" "Project") with ⟨e0, he0⟩
      split
      · refine ⟨{ e0 with images := e0.images ++ [sget mt.metadata "image_url" ""], videos := e0.videos ++ [sget mt.metadata "video_url" ""] }, ?_, by simp⟩
        rw [find?_updEntry, find?_updEntry, he0]
        rfl
      · refine ⟨{ e0 with images := e0.images ++ [sget mt.metadata "image_url" ""] }, ?_, by simp⟩
        rw [find?_updEntry, he0]
        rfl
    · dsimp only
      rcases find?_ensure st.media (sget mt.metadata "project_id" "")
        (sget mt.metadata "title" "Project") with ⟨e0, he0⟩
      split
      · refine ⟨{ e0 with images := e0.images ++ [sget mt.metadata "image_url" ""], videos := e0.videos ++ [sget mt.metadata "video_url" ""] }, ?_, by simp⟩
        rw [find?_updEntry, find?_updEntry, he0]
        rfl
      · refine ⟨{ e0 with images := e0.images ++ [sget mt.metadata "image_url" ""] }, ?_, by simp⟩
        rw [find?_updEntry, he0]
        rfl
  · intro st mt hs ht hp hk hu
    have hC : (sget mt.metadata "type" "" == "project"
        && sget mt.metadata "project_id" "" != "") = true := by
      simp [ht, hp]
    have hV : (hasKey mt.metadata "video_url"
        && sget mt.metadata "video_url" "" != "") = true := by
      simp [hk, hu]
    simp only [processMatch]
    rw [if_pos hs, if_pos hC]
    split
    · dsimp only
      rcases find?_ensure st.media (sget mt.metadata "project_id" "")
        (sget mt.metadata "title" "Project") with ⟨e0, he0⟩
      split
      · refine ⟨{ e0 with images := e0.images ++ [sget mt.metadata "image_url" ""], videos := e0.videos ++ [sget mt.metadata "video_url" ""] }, ?_, by simp⟩
        rw [find?_updEntry, find?_updEntry, he0]
        rfl
      · refine ⟨{ e0 with videos := e0.videos ++ [sget mt.metadata "video_url" ""] }, ?_, by simp⟩
        rw [find?_updEntry, he0]
        rfl
    · dsimp only
      rcases find?_ensure st.media (sget mt.metadata "project_id" "")
        (sget mt.metadata "title" "Project") with ⟨e0, he0⟩
      split
      · refine ⟨{ e0 with images := e0.images ++ [sget mt.metadata "image_url" ""], videos := e0.videos ++ [sget mt.metadata "video_url" ""] }, ?_, by simp⟩
        rw [find?_updEntry, find?_updEntry, he0]
        rfl
      · refine ⟨{ e0 with videos := e0.videos ++ [sget mt.metadata "video_url" ""] }, ?_, by simp⟩
        rw [find?_updEntry, he0]
        rfl

/-- An above-threshold education match carrying an image url, used to
refute C8's chunk-id registration clause. -/
def eduMatch : MatchRec :=
  { id := "education-1", score := mkRat 1 2,
    metadata := [("text", "Edu"), ("type", "education"),
                 ("image_url", "http://edu/img.png")] }

/-- C8 counterexample: an above-threshold match of type `"education"`
carrying an `image_url` registers no media candidate at all — in
particular nothing is keyed by its chunk id, contradicting the claim that
media of non-project chunks is collected under their chunk id. -/
theorem media_registration_cex :
    THRESHOLD < eduMatch.score
    ∧ sget eduMatch.metadata "image_url" "" = "http://edu/img.png"
    ∧ (collectMatches [eduMatch]).media = [] := by decide

/-- A compliant above-threshold project match, used to instantiate the
amended C8. -/
def projMatch : MatchRec :=
  { id := "project-p1", score := mkRat 1 2,
    metadata := [("text", "P"), ("type", "project"), ("project_id", "p1"),
                 ("title", "T"), ("image_url", "http://x/i.png")] }

/-- C8 amended witness: the project match does get its image registered
under its `project_id`. -/
theorem media_registration_witness :
    ((processMatch initState projMatch).media.find?
      (fun kv => kv.1 == sget projMatch.metadata "project_id" "")).isSome = true := by
  rcases media_registration.2.1 initState projMatch (by decide) (by decide) (by decide)
    (by decide) (by decide) with ⟨e, he, _⟩
  rw [he]
  rfl

/-! ### Lemmas about `dedupFirst` -/

theorem mem_dedupFirstAux {a : String} :
    ∀ {l seen : List String}, a ∈ dedupFirstAux seen l ↔ a ∈ l ∧ a ∉ seen := by
  intro l
  induction l with
  | nil => intro seen; simp [dedupFirstAux]
  | cons x xs ih =>
    intro seen
    simp only [dedupFirstAux]
    by_cases hc : seen.contains x = true
    · rw [if_pos hc]
      rw [ih]
      constructor
      · intro ⟨hxs, hns⟩; exact ⟨List.mem_cons_of_mem _ hxs, hns⟩
      · intro ⟨hmem, hns⟩
        rcases List.mem_cons.mp hmem with rfl | hxs
        · exact absurd (by simpa using hc) hns
        · exact ⟨hxs, hns⟩
    · rw [if_neg hc]
      have hxs : x ∉ seen := fun hmem => hc (by simpa using hmem)
      simp only [List.mem_cons, ih]
      constructor
      · intro h
        rcases h with rfl | ⟨hmem, hns⟩
        · exact ⟨Or.inl rfl, hxs⟩
        · exact ⟨Or.inr hmem, fun hs => hns (Or.inr hs)⟩
      · intro ⟨hmem, hns⟩
        rcases hmem with rfl | hmem
        · exact Or.inl rfl
        · by_cases hax : a = x
          · exact Or.inl hax
          · refine Or.inr ⟨hmem, fun hs => ?_⟩
            rcases hs with h1 | h1
            · exact hax h1
            · exact hns h1

theorem mem_dedupFirst {a : String} {l : List String} : a ∈ dedupFirst l ↔ a ∈ l := by
  simp [dedupFirst, mem_dedupFirstAux]

theorem nodup_dedupFirstAux :
    ∀ (l seen : List String), (dedupFirstAux seen l).Nodup := by
  intro l
  induction l with
  | nil => intro seen; simp [dedupFirstAux]
  | cons x xs ih =>
    intro seen
    simp only [dedupFirstAux]
    by_cases hc : seen.contains x = true
    · rw [if_pos hc]; exact ih seen
    · rw [if_neg hc]
      refine List.nodup_cons.mpr ⟨?_, ih (x :: seen)⟩
      intro hmem
      exact (mem_dedupFirstAux.mp hmem).2 (List.mem_cons_self _ _)

theorem nodup_dedupFirst (l : List String) : (dedupFirst l).Nodup :=
  nodup_dedupFirstAux l []

/-! ### C3: the profile image is gated by the profile-intent phrases -/

/-- C3: when the profile chunk's image was collected during retrieval (and
its url does not coincide with any collected project image), the final
images contain the profile image exactly when the query matches one of the
fixed profile-intent phrases; concretely the query `"who are you?"`
matches and `"what languages do you know?"` does not. -/
theorem profile_image_iff (query : String) (st : RetState) (u : String)
    (hu : st.profile_image = some u) (hne : u ≠ "")
    (hproj : ∀ kv ∈ st.media, u ∉ kv.2.images) :
    (u ∈ (finalMedia query st).1 ↔ should_show_profile_image query = true)
    ∧ should_show_profile_image "who are you?" = true
    ∧ should_show_profile_image "what languages do you know?" = false
    ∧ (∀ (st' : RetState) (mt : MatchRec), THRESHOLD < mt.score →
        sget mt.metadata "type" "" = "profile" → hasKey mt.metadata "image_url" = true →
        (processMatch st' mt).profile_image = some (sget mt.metadata "image_url" "")) := by
  refine ⟨?_, by decide, by decide, ?_⟩
  case refine_2 =>
    intro st' mt hs ht hk
    have hB : (sget mt.metadata "type" "" == "profile"
        && hasKey mt.metadata "image_url") = true := by
      simp [ht, hk]
    simp only [processMatch]
    rw [if_pos hs]
    split
    all_goals dsimp only
  simp only [finalMedia]
  by_cases hw : should_show_media query = true
  · rw [if_pos hw]
    dsimp only
    rw [mem_dedupFirst]
    constructor
    · intro hmem
      rcases List.mem_append.mp hmem with hp | hsel
      · unfold profilePart at hp
        by_cases hsh : should_show_profile_image query = true
        · exact hsh
        · rw [if_neg hsh] at hp; cases hp
      · exfalso
        rcases List.mem_flatMap.mp hsel with ⟨e, he, hue⟩
        rcases List.mem_filterMap.mp he with ⟨pid, _, hfind⟩
        rcases Option.map_eq_some'.mp hfind with ⟨kv, hkv, hekv⟩
        rw [← hekv] at hue
        exact hproj kv (List.mem_of_find?_eq_some hkv) hue
    · intro hsh
      apply List.mem_append_left
      unfold profilePart
      rw [if_pos hsh, hu]
      simp [truthyList, hne]
  · rw [if_neg hw]
    dsimp only
    rw [mem_dedupFirst]
    unfold profilePart
    by_cases hsh : should_show_profile_image query = true
    · rw [if_pos hsh, hu]
      simp [truthyList, hne, hsh]
    · rw [if_neg hsh]
      simp [hsh]

/-- Retrieval state holding only the collected profile image. -/
def profileState : RetState :=
  { context_text := "", media := [], profile_image := some "http://p/avatar.png" }

/-- C3 witness: with the profile image collected, the query
`"who are you?"` makes it appear in the final images. -/
theorem profile_image_iff_witness :
    ("http://p/avatar.png" ∈ (finalMedia "who are you?" profileState).1
        ↔ should_show_profile_image "who are you?" = true)
      ∧ should_show_profile_image "who are you?" = true
      ∧ should_show_profile_image "what languages do you know?" = false := by
  obtain ⟨h1, h2, h3, _⟩ :=
    profile_image_iff "who are you?" profileState "http://p/avatar.png" rfl
      (by decide) (by decide)
  exact ⟨h1, h2, h3⟩

/-! ### C4: the media gate for project images and videos -/

theorem matched_keyword {pid query : String} (h : pid ∈ get_matched_project_ids query) :
    ∃ kws, (pid, kws) ∈ PROJECT_KEYWORDS
      ∧ ∃ kw ∈ kws, strContains (pyLower query) kw = true := by
  simp only [get_matched_project_ids] at h
  rcases List.mem_map.mp h with ⟨pk, hpk, rfl⟩
  rcases List.mem_filter.mp hpk with ⟨hmem, hany⟩
  rcases List.any_eq_true.mp hany with ⟨kw, hkw, hc⟩
  exact ⟨pk.2, by simpa using hmem, kw, hkw, hc⟩

/-- C4 amended: apart from the profile-image rule, a url lands in the
final images only when the query contains one of the nine media-request
words of `should_show_media` (show/image/picture/photo/video/demo/visual/
see/watch — the claim's list lacks `photo`) and the url belongs to the
collected media entry of a project identified from the query — via the
literal keyword-to-project-id mapping (or, a fortiori, the disjunction
with the spec's normalized-substring title match); likewise for final
videos when visual intent is present (the auto-suggest fallback fires only
without visual intent). -/
theorem media_gate :
    (∀ (query : String) (st : RetState) (u : String),
        u ∉ profilePart query st →
        u ∈ (finalMedia query st).1 →
        should_show_media query = true
          ∧ ∃ pid e, (st.media.find? (fun kv => kv.1 == pid)) = some (pid, e)
              ∧ u ∈ e.images
              ∧ ((∃ kws, (pid, kws) ∈ PROJECT_KEYWORDS
                    ∧ ∃ kw ∈ kws, strContains (pyLower query) kw = true)
                  ∨ normTitleMatch e.title query = true))
    ∧ (∀ (query : String) (st : RetState) (u : String),
        should_show_media query = true →
        u ∈ (finalMedia query st).2 →
        ∃ pid e, (st.media.find? (fun kv => kv.1 == pid)) = some (pid, e)
            ∧ u ∈ e.videos
            ∧ ((∃ kws, (pid, kws) ∈ PROJECT_KEYWORDS
                  ∧ ∃ kw ∈ kws, strContains (pyLower query) kw = true)
                ∨ normTitleMatch e.title query = true)) := by
  constructor
  · intro query st u hup him
    simp only [finalMedia] at him
    by_cases hw : should_show_media query = true
    · refine ⟨hw, ?_⟩
      rw [if_pos hw] at him
      dsimp only at him
      rw [mem_dedupFirst] at him
      rcases List.mem_append.mp him with hp | hsel
      · exact absurd hp hup
      · rcases List.mem_flatMap.mp hsel with ⟨e, he, hue⟩
        rcases List.mem_filterMap.mp he with ⟨pid, hpid, hfind⟩
        rcases Option.map_eq_some'.mp hfind with ⟨kv, hkv, hekv⟩
        have hk1 : kv.1 = pid := by simpa using List.find?_some hkv
        refine ⟨pid, e, ?_, hue, Or.inl (matched_keyword hpid)⟩
        rw [hkv, ← hekv, ← hk1]
    · rw [if_neg hw] at him
      dsimp only at him
      rw [mem_dedupFirst] at him
      exact absurd him hup
  · intro query st u hw hvm
    simp only [finalMedia] at hvm
    rw [if_pos hw] at hvm
    dsimp only at hvm
    rw [mem_dedupFirst] at hvm
    rcases List.mem_flatMap.mp hvm with ⟨e, he, hue⟩
    rcases List.mem_filterMap.mp he with ⟨pid, hpid, hfind⟩
    rcases Option.map_eq_some'.mp hfind with ⟨kv, hkv, hekv⟩
    have hk1 : kv.1 = pid := by simpa using List.find?_some hkv
    refine ⟨pid, e, ?_, hue, Or.inl (matched_keyword hpid)⟩
    rw [hkv, ← hekv, ← hk1]

/-- Retrieval state with collected media for the verdex project, used for
the C4 counterexample and witness. -/
def verdexState : RetState :=
  { context_text := "",
    media := [("verdex-mobile-app",
      { images := ["http://x/img.png"], videos := [], title := "Verdex" })],
    profile_image := none }

/-- C4 counterexample: the query `"photo of verdex"` attaches the verdex
project image although it contains none of the eight media-request words
the claim lists — the code's `should_show_media` additionally accepts
`"photo"`, which the claim's word list omits. -/
theorem media_gate_cex :
    "http://x/img.png" ∈ (finalMedia "photo of verdex" verdexState).1
    ∧ CLAIM_MEDIA_WORDS.all
        (fun w => !(strContains (pyLower "photo of verdex") w)) = true := by decide

/-- C4 amended witness: the query `"show me verdex"` passes the media gate
(visual intent plus keyword-identified project). -/
theorem media_gate_witness :
    should_show_media "show me verdex" = true :=
  (media_gate.1 "show me verdex" verdexState "http://x/img.png" (by decide) (by decide)).1

/-! ### C5: composition-time de-duplication -/

theorem listStartsWith_append {pat : List Char} :
    ∀ {l : List Char}, listStartsWith pat l = true →
      ∀ l2, listStartsWith pat (l ++ l2) = true := by
  induction pat with
  | nil => intro l _ l2; rfl
  | cons a as ih =>
    intro l h l2
    cases l with
    | nil => simp [listStartsWith] at h
    | cons b bs =>
      simp only [listStartsWith, Bool.and_eq_true] at h
      simp only [List.cons_append, listStartsWith, Bool.and_eq_true]
      exact ⟨h.1, ih h.2 l2⟩

theorem listHasSub_nil_pat : ∀ (l : List Char), listHasSub [] l = true := by
  intro l
  cases l with
  | nil => rfl
  | cons b bs => simp [listHasSub, listStartsWith]

theorem listHasSub_append_left {pat : List Char} :
    ∀ {l : List Char}, listHasSub pat l = true →
      ∀ l2, listHasSub pat (l ++ l2) = true := by
  intro l
  induction l with
  | nil =>
    intro h l2
    have : pat = [] := by simpa [listHasSub, List.isEmpty_iff] using h
    rw [this]
    exact listHasSub_nil_pat l2
  | cons b bs ih =>
    intro h l2
    simp only [listHasSub, Bool.or_eq_true] at h
    simp only [List.cons_append, listHasSub, Bool.or_eq_true]
    rcases h with h | h
    · exact Or.inl (listStartsWith_append h l2)
    · exact Or.inr (ih h l2)

/-- Substring occurrence persists when the text grows on the right — so a
url present in the answer text stays present while urls are appended. -/
theorem strContains_append {t u : String} (h : strContains t u = true) (s : String) :
    strContains (t ++ s) u = true := by
  unfold strContains at h ⊢
  have hd : (t ++ s).toList = t.toList ++ s.toList := by
    simp [String.toList]
  rw [hd]
  exact listHasSub_append_left h s.toList

theorem appendImgs_skip {u : String} :
    ∀ (l : List String) (t : String), strContains t u = true →
      u ∉ (appendImgs t l).2 := by
  intro l
  induction l with
  | nil => intro t _ hmem; simp [appendImgs] at hmem
  | cons img rest ih =>
    intro t h hmem
    simp only [appendImgs] at hmem
    by_cases hc : strContains t img = true
    · rw [if_pos hc] at hmem
      exact ih t h hmem
    · rw [if_neg hc] at hmem
      dsimp only at hmem
      rcases List.mem_cons.mp hmem with rfl | hmem
      · exact hc h
      · exact ih _ (strContains_append (strContains_append (strContains_append h "![Visual](") img) ")\n") hmem

theorem appendVids_skip {u : String} :
    ∀ (l : List String) (t : String), strContains t u = true →
      u ∉ (appendVids t l).2 := by
  intro l
  induction l with
  | nil => intro t _ hmem; simp [appendVids] at hmem
  | cons vid rest ih =>
    intro t h hmem
    simp only [appendVids] at hmem
    by_cases hc : strContains t vid = true
    · rw [if_pos hc] at hmem
      exact ih t h hmem
    · rw [if_neg hc] at hmem
      dsimp only at hmem
      rcases List.mem_cons.mp hmem with rfl | hmem
      · exact hc h
      · exact ih _ (strContains_append (strContains_append (strContains_append h "\n🎥 **Watch Video:** [Project Demo](") vid) ")\n") hmem

theorem appendImgs_sublist : ∀ (l : List String) (t : String),
    (appendImgs t l).2.Sublist l := by
  intro l
  induction l with
  | nil => intro t; simp [appendImgs]
  | cons img rest ih =>
    intro t
    simp only [appendImgs]
    by_cases hc : strContains t img = true
    · rw [if_pos hc]
      exact (ih t).cons img
    · rw [if_neg hc]
      dsimp only
      exact (ih _).cons₂ img

theorem appendVids_sublist : ∀ (l : List String) (t : String),
    (appendVids t l).2.Sublist l := by
  intro l
  induction l with
  | nil => intro t; simp [appendVids]
  | cons vid rest ih =>
    intro t
    simp only [appendVids]
    by_cases hc : strContains t vid = true
    · rw [if_pos hc]
      exact (ih t).cons vid
    · rw [if_neg hc]
      dsimp only
      exact (ih _).cons₂ vid

/-- C5 amended: during composition a candidate url already occurring
verbatim in the accumulated answer text is never appended (neither as an
image nor as a video); the urls actually appended form a sublist of the
de-duplicated candidates — unique and in first-seen order — so no url is
appended twice; but a candidate may still occur more than once in the
final text, e.g. as a substring of a later appended url. -/
theorem compose_dedup :
    (∀ (t : String) (l : List String) (u : String), strContains t u = true →
        u ∉ (appendImgs t l).2 ∧ u ∉ (appendVids t l).2)
    ∧ (∀ (t : String) (imgs : List String),
        (appendImgs t (dedupFirst imgs)).2.Nodup
          ∧ (appendImgs t (dedupFirst imgs)).2.Sublist (dedupFirst imgs))
    ∧ (∀ (t : String) (vids : List String),
        (appendVids t (dedupFirst vids)).2.Nodup
          ∧ (appendVids t (dedupFirst vids)).2.Sublist (dedupFirst vids)) := by
  refine ⟨?_, ?_, ?_⟩
  · intro t l u h
    exact ⟨appendImgs_skip l t h, appendVids_skip l t h⟩
  · intro t imgs
    exact ⟨(appendImgs_sublist (dedupFirst imgs) t).nodup (nodup_dedupFirst imgs),
      appendImgs_sublist (dedupFirst imgs) t⟩
  · intro t vids
    exact ⟨(appendVids_sublist (dedupFirst vids) t).nodup (nodup_dedupFirst vids),
      appendVids_sublist (dedupFirst vids) t⟩

/-- C5 counterexample: with generated text `"Hi"` and the (already
de-duplicated, distinct) candidate images `http://a/b` and `http://a/bc`,
the composed response text contains the candidate url `http://a/b` at two
positions — once as the appended image and once inside the other url — so
a candidate url can appear twice in the final response text. -/
theorem compose_dedup_cex :
    countOccur (compose "Hi" ["http://a/b", "http://a/bc"] []) "http://a/b" = 2
    ∧ dedupFirst ["http://a/b", "http://a/bc"] = ["http://a/b", "http://a/bc"] := by decide

/-- C5 amended witness: a url already present in the answer text is not
appended. -/
theorem compose_dedup_witness :
    strContains "see http://a/b" "http://a/b" = true
    ∧ "http://a/b" ∉ (appendImgs "see http://a/b" ["http://a/b"]).2 :=
  ⟨by decide,
   (compose_dedup.1 "see http://a/b" ["http://a/b"] "http://a/b" (by decide)).1⟩

/-! ### C10: case-insensitivity of the intent heuristics -/

/-- Two strings differing only in letter case: same length, and the
characters agree position-wise up to `Char.toLower`. -/
def caseVariant (a b : String) : Bool :=
  (a.toList.length == b.toList.length)
  && ((a.toList.zip b.toList).all (fun cd => cd.1.toLower == cd.2.toLower))

theorem map_toLower_eq : ∀ (l1 l2 : List Char), l1.length = l2.length →
    ((l1.zip l2).all (fun cd => cd.1.toLower == cd.2.toLower)) = true →
    l1.map Char.toLower = l2.map Char.toLower := by
  intro l1
  induction l1 with
  | nil =>
    intro l2 h _
    cases l2 with
    | nil => rfl
    | cons d ds => simp at h
  | cons c cs ih =>
    intro l2 h hall
    cases l2 with
    | nil => simp at h
    | cons d ds =>
      simp only [List.zip_cons_cons, List.all_cons, Bool.and_eq_true] at hall
      simp only [List.map_cons]
      have hcd : c.toLower = d.toLower := by simpa using hall.1
      rw [hcd, ih ds (by simpa using h) hall.2]

theorem pyLower_eq_of_caseVariant {a b : String} (h : caseVariant a b = true) :
    pyLower a = pyLower b := by
  simp only [caseVariant, Bool.and_eq_true] at h
  unfold pyLower
  rw [map_toLower_eq a.toList b.toList (by simpa using h.1) h.2]

/-- C10: all three intent heuristics lowercase the query before matching
against all-lowercase keyword lists, so they return identical results on
queries differing only in letter case. -/
theorem case_insensitive (a b : String) (h : caseVariant a b = true) :
    get_matched_project_ids a = get_matched_project_ids b
    ∧ should_show_profile_image a = should_show_profile_image b
    ∧ should_show_media a = should_show_media b := by
  have hl := pyLower_eq_of_caseVariant h
  refine ⟨?_, ?_, ?_⟩
  · unfold get_matched_project_ids
    rw [hl]
  · unfold should_show_profile_image
    rw [hl]
  · unfold should_show_media
    rw [hl]

/-- C10 witness: a mixed-case query and its lowercase form agree on all
three heuristics. -/
theorem case_insensitive_witness :
    caseVariant "Show ME the MRI Video" "show me the mri video" = true
    ∧ (get_matched_project_ids "Show ME the MRI Video"
          = get_matched_project_ids "show me the mri video"
        ∧ should_show_profile_image "Show ME the MRI Video"
          = should_show_profile_image "show me the mri video"
        ∧ should_show_media "Show ME the MRI Video"
          = should_show_media "show me the mri video") :=
  ⟨by decide, case_insensitive _ _ (by decide)⟩

end Portfolio
